import Mathlib

/-!
Shallow embedding of the call-signaling / peer-connection orchestration core
of the web-call application, together with proofs of the specification claims.

The embedding follows the TypeScript source:
* `WebRTCService` (the PeerLinkOrchestrator / MediaStreamManager of the spec)
  from `src/lib/webrtc.ts`;
* the call-session operations `startCall`, `answerCall`, `endCall` and the
  ring timer (the CallSessionManager of the spec) from
  `src/contexts/CallContext.tsx`.

Browser `RTCPeerConnection` objects are modelled by a record carrying exactly
the observable state the source reads or writes: signaling state, connection
state, local/remote descriptions, senders (attached tracks) and the list of
candidates applied via `addIceCandidate`, in order.  The Firestore documents
the source writes (`calls/…`, `offers/…`, `answers/…`) are modelled as
association lists keyed the way the source keys them.
-/

/-- SDP description type, as carried by `RTCSessionDescriptionInit.type`. -/
inductive SdpType where
  | offer
  | answer
deriving DecidableEq, Repr

/-- A session description (`RTCSessionDescriptionInit`): its type and an
abstract SDP payload. -/
structure SessionDesc where
  type : SdpType
  sdp : Nat
deriving DecidableEq, Repr

/-- WebRTC signaling states the source code inspects. -/
inductive SignalingState where
  | stable
  | haveLocalOffer
  | haveRemoteOffer
  | closedSig
deriving DecidableEq, Repr

/-- WebRTC connection states the source code inspects
(`connectionState` on `RTCPeerConnection`). -/
inductive ConnState where
  | newConn
  | connecting
  | connected
  | disconnected
  | failed
  | closedConn
deriving DecidableEq, Repr

/-- An ICE candidate, abstracted to an identifier. -/
structure IceCandidate where
  payload : Nat
deriving DecidableEq, Repr

/-- Kind of a media track. -/
inductive TrackKind where
  | audio
  | video
deriving DecidableEq, Repr

/-- A local media track (`MediaStreamTrack`): identity plus kind. -/
structure Track where
  id : Nat
  kind : TrackKind
deriving DecidableEq, Repr

/-- The observable state of one `RTCPeerConnection` as used by the source:
signaling state, connection state, the two descriptions, the sender track
list (`getSenders`), and the candidates applied through `addIceCandidate`
in application order. -/
structure RTCPeerConnection where
  signalingState : SignalingState
  connectionState : ConnState
  localDescription : Option SessionDesc
  remoteDescription : Option SessionDesc
  senders : List Track
  appliedCandidates : List IceCandidate
deriving DecidableEq, Repr

namespace RTCPeerConnection

/-- `new RTCPeerConnection(ICE_SERVERS)`: fresh connection. -/
def fresh : RTCPeerConnection :=
  { signalingState := .stable
    connectionState := .newConn
    localDescription := none
    remoteDescription := none
    senders := []
    appliedCandidates := [] }

/-- `addTrack(track, stream)`: appends a sender for the track. -/
def addTrack (pc : RTCPeerConnection) (t : Track) : RTCPeerConnection :=
  { pc with senders := pc.senders ++ [t] }

/-- `setLocalDescription(desc)`.  Legal transitions per the W3C state
machine as relied on by the source: an offer in `stable` moves to
`have-local-offer`; an answer in `have-remote-offer` moves to `stable`.
The source only calls this in legal states (or wraps it in a logged
`try`/`catch`), so an illegal combination leaves the connection
unchanged. -/
def setLocalDescription (pc : RTCPeerConnection) (d : SessionDesc) :
    RTCPeerConnection :=
  match pc.signalingState, d.type with
  | .stable, .offer =>
      { pc with signalingState := .haveLocalOffer, localDescription := some d }
  | .haveRemoteOffer, .answer =>
      { pc with signalingState := .stable, localDescription := some d }
  | _, _ => pc

/-- `setRemoteDescription(desc)`: an offer in `stable` moves to
`have-remote-offer`; an answer in `have-local-offer` moves back to
`stable`.  Illegal combinations leave the connection unchanged (the source
guards or catches them). -/
def setRemoteDescription (pc : RTCPeerConnection) (d : SessionDesc) :
    RTCPeerConnection :=
  match pc.signalingState, d.type with
  | .stable, .offer =>
      { pc with signalingState := .haveRemoteOffer, remoteDescription := some d }
  | .haveLocalOffer, .answer =>
      { pc with signalingState := .stable, remoteDescription := some d }
  | _, _ => pc

/-- `addIceCandidate(candidate)`: records the candidate in application
order. -/
def addIceCandidate (pc : RTCPeerConnection) (c : IceCandidate) :
    RTCPeerConnection :=
  { pc with appliedCandidates := pc.appliedCandidates ++ [c] }

/-- `close()`. -/
def close (pc : RTCPeerConnection) : RTCPeerConnection :=
  { pc with signalingState := .closedSig, connectionState := .closedConn }

end RTCPeerConnection

/-- Association-list lookup, modelling `Map.get(k)` / a keyed document
read. -/
def alistFind {κ α : Type} [DecidableEq κ] (k : κ) :
    List (κ × α) → Option α
  | [] => none
  | (k', v) :: rest => if k' = k then some v else alistFind k rest

/-- Association-list update, modelling `Map.set(k, v)` / `setDoc`:
replaces the value at an existing key in place, otherwise appends. -/
def alistSet {κ α : Type} [DecidableEq κ] (k : κ) (v : α) :
    List (κ × α) → List (κ × α)
  | [] => [(k, v)]
  | (k', v') :: rest =>
      if k' = k then (k', v) :: rest else (k', v') :: alistSet k v rest

/-- Association-list removal, modelling `Map.delete(k)`. -/
def alistErase {κ α : Type} [DecidableEq κ] (k : κ) :
    List (κ × α) → List (κ × α)
  | [] => []
  | (k', v') :: rest =>
      if k' = k then rest else (k', v') :: alistErase k rest

/-- One entry of the service's `peerConnections` map (the source's
`PeerConnection` record: remote user id, connection, optional remote
stream ref, which we do not need). -/
structure PeerConnectionEntry where
  userId : String
  connection : RTCPeerConnection
deriving DecidableEq, Repr

/-- The `WebRTCService` instance state: the per-remote connection map, the
local stream's tracks (if acquired), the current call id, a counter for
fresh track identities, and the log of `track.stop()` calls performed. -/
structure WebRTCService where
  peerConnections : List (String × PeerConnectionEntry)
  localStream : Option (List Track)
  callId : Option String
  nextTrackId : Nat
  stoppedTrackIds : List Nat
deriving DecidableEq, Repr

namespace WebRTCService

/-- `new WebRTCService(userId)` (the user id is threaded separately where
needed). -/
def fresh : WebRTCService :=
  { peerConnections := []
    localStream := none
    callId := none
    nextTrackId := 0
    stoppedTrackIds := []
    }

/-- `initializeLocalStream(audioOnly)`: stops any existing stream's tracks,
then acquires a fresh stream — an audio track, plus a video track unless
`audioOnly`.  (The browser-support and HTTPS checks, and acquisition
failures, abort before any of this state changes; the claims concern the
success path.) -/
def initializeLocalStream (svc : WebRTCService) (audioOnly : Bool) :
    List Track × WebRTCService :=
  let stopped := match svc.localStream with
    | some ts => svc.stoppedTrackIds ++ ts.map Track.id
    | none => svc.stoppedTrackIds
  let audioTrack : Track := ⟨svc.nextTrackId, .audio⟩
  let tracks := if audioOnly then [audioTrack]
    else [audioTrack, ⟨svc.nextTrackId + 1, .video⟩]
  (tracks,
    { svc with
        localStream := some tracks
        nextTrackId := svc.nextTrackId + 2
        stoppedTrackIds := stopped })

/-- The track-attachment loop inside `createPeerConnection`: for each local
track, `addTrack` unless a sender for it is already present
(`senders.some(sender => sender.track === track)`). -/
def attachTracks (pc : RTCPeerConnection) (tracks : List Track) :
    RTCPeerConnection :=
  tracks.foldl
    (fun pc t => if t ∈ pc.senders then pc else pc.addTrack t) pc

/-- Write-back of a connection into the `peerConnections` map
(`this.peerConnections.set(remoteUserId, { userId, connection })`, and the
in-place mutations of a connection already held by the map). -/
def storePeer (svc : WebRTCService) (k : String) (e : PeerConnectionEntry) :
    WebRTCService :=
  { svc with peerConnections := alistSet k e svc.peerConnections }

/-- `closePeerConnection(userId)`: closes and removes the entry if present,
otherwise does nothing. -/
def closePeerConnection (svc : WebRTCService) (userId : String) :
    WebRTCService :=
  match alistFind userId svc.peerConnections with
  | some _ =>
      { svc with peerConnections := alistErase userId svc.peerConnections }
  | none => svc

/-- `createPeerConnection(remoteUserId)`: reuses an existing non-closed
connection unchanged; otherwise discards a closed retained entry, builds a
fresh connection, attaches every current local track (skipping tracks
already present among the senders), and stores it. -/
def createPeerConnection (svc : WebRTCService) (remoteUserId : String) :
    RTCPeerConnection × WebRTCService :=
  match alistFind remoteUserId svc.peerConnections with
  | some existing =>
      if existing.connection.connectionState ≠ .closedConn then
        (existing.connection, svc)
      else
        let svc := svc.closePeerConnection remoteUserId
        let pc := attachTracks .fresh (svc.localStream.getD [])
        (pc, svc.storePeer remoteUserId ⟨remoteUserId, pc⟩)
  | none =>
      let pc := attachTracks .fresh (svc.localStream.getD [])
      (pc, svc.storePeer remoteUserId ⟨remoteUserId, pc⟩)

/-- `createOffer(remoteUserId)`: create-or-reuse the connection, create an
offer description and set it as local description. -/
def createOffer (svc : WebRTCService) (remoteUserId : String) :
    SessionDesc × WebRTCService :=
  let res := svc.createPeerConnection remoteUserId
  let offer : SessionDesc := ⟨.offer, 0⟩
  let pc := res.1.setLocalDescription offer
  (offer, res.2.storePeer remoteUserId ⟨remoteUserId, pc⟩)

/-- `createAnswer(remoteUserId, offer)`: create-or-reuse the connection,
set the offer as remote description, create an answer and set it as local
description. -/
def createAnswer (svc : WebRTCService) (remoteUserId : String)
    (offer : SessionDesc) : SessionDesc × WebRTCService :=
  let res := svc.createPeerConnection remoteUserId
  let answer : SessionDesc := ⟨.answer, 0⟩
  let pc := (res.1.setRemoteDescription offer).setLocalDescription answer
  (answer, res.2.storePeer remoteUserId ⟨remoteUserId, pc⟩)

/-- `handleAnswer(remoteUserId, answer)`: if no connection is registered
for the remote, log and return; if the signaling state is exactly
`have-local-offer`, apply the answer as remote description; otherwise log
a warning and change nothing. -/
def handleAnswer (svc : WebRTCService) (remoteUserId : String)
    (answer : SessionDesc) : WebRTCService :=
  match alistFind remoteUserId svc.peerConnections with
  | none => svc
  | some entry =>
      if entry.connection.signalingState = .haveLocalOffer then
        svc.storePeer remoteUserId
          ⟨entry.userId, entry.connection.setRemoteDescription answer⟩
      else svc

/-- `handleIceCandidate(remoteUserId, candidate)`: if no connection is
registered for the remote, log and return; if a remote description is set,
apply the candidate; otherwise do nothing (the source has no pending
queue — the candidate is simply not applied). -/
def handleIceCandidate (svc : WebRTCService) (remoteUserId : String)
    (c : IceCandidate) : WebRTCService :=
  match alistFind remoteUserId svc.peerConnections with
  | none => svc
  | some entry =>
      if entry.connection.remoteDescription.isSome then
        svc.storePeer remoteUserId
          ⟨entry.userId, entry.connection.addIceCandidate c⟩
      else svc

/-- `setCallId(callId)`. -/
def setCallId (svc : WebRTCService) (callId : String) : WebRTCService :=
  { svc with callId := some callId }

/-- `cleanup()`: stops every local track and drops the stream, closes and
clears every peer connection, clears the call id. -/
def cleanup (svc : WebRTCService) : WebRTCService :=
  let stopped := match svc.localStream with
    | some ts => svc.stoppedTrackIds ++ ts.map Track.id
    | none => svc.stoppedTrackIds
  { svc with
      localStream := none
      peerConnections := []
      callId := none
      stoppedTrackIds := stopped }

end WebRTCService

/-- Call kind (`type: 'voice' | 'video'`). -/
inductive CallType where
  | voice
  | video
deriving DecidableEq, Repr

/-- Call session status. -/
inductive CallStatus where
  | ringing
  | active
  | ended
  | missed
deriving DecidableEq, Repr

/-- A `calls/{callId}` document as written by `startCall` and mutated by
the other operations.  (Caller display name/photo are UI-only fields and
are omitted.) -/
structure CallDoc where
  callerId : String
  receiverId : Option String
  participants : List String
  type : CallType
  status : CallStatus
  isGroupCall : Bool
  createdAt : Nat
  startedAt : Option Nat
  endedAt : Option Nat
deriving DecidableEq, Repr

/-- A `calls/{callId}/offers/{receiverId}` document. -/
structure OfferDoc where
  offer : SessionDesc
  fromUserId : String
  toUserId : String
deriving DecidableEq, Repr

/-- A `calls/{callId}/answers/{answererId}` document. -/
structure AnswerDoc where
  answer : SessionDesc
  fromUserId : String
  toUserId : String
deriving DecidableEq, Repr

/-- The React `CallState` held by `CallProvider` (remote stream refs and
fetched participant profiles are UI display data and are omitted). -/
structure CallState where
  callId : Option String
  isInCall : Bool
  isCalling : Bool
  isReceivingCall : Bool
  callType : Option CallType
  localStream : Option (List Track)
  isMuted : Bool
  isVideoOff : Bool
deriving DecidableEq, Repr

/-- The initial `CallState` object (also used by `endCall`'s reset). -/
def initialCallState : CallState :=
  { callId := none
    isInCall := false
    isCalling := false
    isReceivingCall := false
    callType := none
    localStream := none
    isMuted := false
    isVideoOff := false }

/-- The whole state touched by the call-context operations: the Firestore
`calls`, `offers` and `answers` collections, the `WebRTCService`, the
provider's `CallState`, the held incoming call, the call ids with a ring
timer currently scheduled (the source's `setTimeout` in `startCall`, which
it never clears), and a clock for `Timestamp.now()`. -/
structure CallCtxState where
  calls : List (String × CallDoc)
  offers : List ((String × String) × OfferDoc)
  answers : List ((String × String) × AnswerDoc)
  svc : WebRTCService
  callState : CallState
  incomingCall : Option (String × CallDoc)
  pendingRingTimers : List String
  now : Nat
deriving DecidableEq, Repr

/-- Outcome of `startCall`. -/
inductive StartCallResult where
  | ok (callId : String)
  | tooManyParticipants
deriving DecidableEq, Repr

/-- Outcome of `answerCall`: `ok`, `skipped` when the guard
(`!incomingCall`) returns early, `writeFailed` when the status update
targets a missing document and the rejection is rethrown. -/
inductive AnswerCallResult where
  | ok
  | skipped
  | writeFailed
deriving DecidableEq, Repr

/-- `MAX_PARTICIPANTS`. -/
def MAX_PARTICIPANTS : Nat := 5

/-- The fresh document id `doc(collection(db, 'calls'))` allocates for a
new call, modelled as deterministic in the number of existing call
documents. -/
def freshCallId (s : CallCtxState) : String :=
  "call" ++ toString s.calls.length

/-- The offer-publishing loop of `startCall`: for each receiver, create an
offer (creating the outbound peer connection) and write the
`offers/{receiverId}` document. -/
def publishOffers (user callId : String) (receiverIds : List String)
    (svc : WebRTCService)
    (offers : List ((String × String) × OfferDoc)) :
    WebRTCService × List ((String × String) × OfferDoc) :=
  match receiverIds with
  | [] => (svc, offers)
  | r :: rest =>
      let res := svc.createOffer r
      let offers := alistSet (callId, r) ⟨res.1, user, r⟩ offers
      publishOffers user callId rest res.2 offers

/-- `startCall(receiverIds, type)` for local user `user`: participant-count
guard, media acquisition, `calls` document creation, one offer per
receiver, state update, and scheduling of the 2-second ring timer. -/
def startCall (user : String) (receiverIds : List String) (type : CallType)
    (s : CallCtxState) : StartCallResult × CallCtxState :=
  if MAX_PARTICIPANTS < receiverIds.length + 1 then
    (.tooManyParticipants, s)
  else
    let cs := { s.callState with isCalling := true, callType := some type }
    let media := s.svc.initializeLocalStream (type = .voice)
    let localStream := media.1
    let svc := media.2
    let callId := freshCallId s
    let isGroupCall := decide (1 < receiverIds.length)
    let callDoc : CallDoc :=
      { callerId := user
        receiverId := if isGroupCall then none else receiverIds.head?
        participants := user :: receiverIds
        type := type
        status := .ringing
        isGroupCall := isGroupCall
        createdAt := s.now
        startedAt := none
        endedAt := none }
    let calls := alistSet callId callDoc s.calls
    let svc := svc.setCallId callId
    let pub := publishOffers user callId receiverIds svc s.offers
    let svc := pub.1
    let offers := pub.2
    let cs := { cs with
        callId := some callId
        isInCall := true
        isCalling := false
        localStream := some localStream }
    (.ok callId,
      { s with
          calls := calls
          offers := offers
          svc := svc
          callState := cs
          pendingRingTimers := s.pendingRingTimers ++ [callId] })

/-- The body of the `setTimeout` scheduled by `startCall`: after 2 seconds
it runs `updateDoc(callRef, { status: 'active', startedAt })`
unconditionally — the source neither clears the timeout nor checks the
session status in the callback.  A missing document makes `updateDoc`
reject (nothing handles it; no state changes). -/
def fireRingTimer (callId : String) (s : CallCtxState) : CallCtxState :=
  match alistFind callId s.calls with
  | none => s
  | some d =>
      { s with
          calls := alistSet callId
            { d with status := .active, startedAt := some s.now } s.calls
          pendingRingTimers := s.pendingRingTimers.erase callId }

/-- `endCall()`: guard on a local `callId`; then, inside one `try` block,
update the call document to `ended`, run `webRTCService.cleanup()`, reset
the provider state and clear the incoming call.  `updateDocFails` injects
a rejection of the status write: the `catch` only logs, so none of the
later steps run.  (A missing call document makes the write reject the same
way.) -/
def endCall (updateDocFails : Bool) (s : CallCtxState) : CallCtxState :=
  match s.callState.callId with
  | none => s
  | some cid =>
      if updateDocFails then s
      else
        match alistFind cid s.calls with
        | none => s
        | some d =>
            { s with
                calls := alistSet cid
                  { d with status := .ended, endedAt := some s.now } s.calls
                svc := s.svc.cleanup
                callState := initialCallState
                incomingCall := none }

/-- The tail of `answerCall` after the optional offer handling: the
unconditional `updateDoc(calls/{callId}, { status: 'active', startedAt })`
and the provider-state update.  `svc`, `answers` and `localStream` carry
the mutations already performed before this point. -/
def answerCallFinish (callId : String) (incomingType : CallType)
    (svc : WebRTCService)
    (answers : List ((String × String) × AnswerDoc))
    (localStream : List Track) (s : CallCtxState) :
    AnswerCallResult × CallCtxState :=
  match alistFind callId s.calls with
  | none =>
      (.writeFailed, { s with svc := svc, answers := answers })
  | some d =>
      (.ok,
        { s with
            calls := alistSet callId
              { d with status := .active, startedAt := some s.now } s.calls
            svc := svc
            answers := answers
            callState := { s.callState with
              callId := some callId
              isInCall := true
              isReceivingCall := false
              callType := some incomingType
              localStream := some localStream }
            incomingCall := none })

/-- `answerCall(callId)` for local user `user`: guard on a held incoming
call; acquire local media for the incoming call's kind; set the call id on
the service; if an offer addressed to `user` exists, create the inbound
connection/answer for its sender and publish the answer document; then
unconditionally mark the call `active` and update the provider state. -/
def answerCall (user : String) (callId : String) (s : CallCtxState) :
    AnswerCallResult × CallCtxState :=
  match s.incomingCall with
  | none => (.skipped, s)
  | some (_, incoming) =>
      let media := s.svc.initializeLocalStream (incoming.type = .voice)
      let localStream := media.1
      let svc := media.2.setCallId callId
      match alistFind (callId, user) s.offers with
      | some od =>
          let callerId := od.fromUserId
          let res := svc.createAnswer callerId od.offer
          let answers :=
            alistSet (callId, user) ⟨res.1, user, callerId⟩ s.answers
          answerCallFinish callId incoming.type res.2 answers localStream s
      | none =>
          answerCallFinish callId incoming.type svc s.answers localStream s

/-! ## Helper lemmas about the association-list operations -/

theorem alistFind_set {κ α : Type} [DecidableEq κ] (k k' : κ) (v : α)
    (l : List (κ × α)) :
    alistFind k (alistSet k' v l) =
      if k = k' then some v else alistFind k l := by
  induction l with
  | nil =>
      by_cases h : k = k'
      · subst h
        simp [alistSet, alistFind]
      · simp [alistSet, alistFind, h, Ne.symm h]
  | cons hd tl ih =>
      obtain ⟨k₀, v₀⟩ := hd
      by_cases h0 : k₀ = k'
      · subst h0
        by_cases h1 : k = k₀
        · subst h1
          simp [alistSet, alistFind]
        · simp [alistSet, alistFind, h1, Ne.symm h1]
      · by_cases h1 : k₀ = k
        · subst h1
          simp [alistSet, alistFind, h0, Ne.symm h0, ih]
        · simp [alistSet, alistFind, h0, h1, ih]

theorem alistSet_keys_of_find_none {κ α : Type} [DecidableEq κ] (k : κ)
    (v : α) (l : List (κ × α)) (h : alistFind k l = none) :
    (alistSet k v l).map Prod.fst = l.map Prod.fst ++ [k] := by
  induction l with
  | nil => simp [alistSet]
  | cons hd tl ih =>
      obtain ⟨k₀, v₀⟩ := hd
      by_cases h0 : k₀ = k
      · simp [alistFind, h0] at h
      · simp [alistFind, h0] at h
        simp [alistSet, h0, ih h]

theorem alistSet_keys_of_find_some {κ α : Type} [DecidableEq κ] (k : κ)
    (v w : α) (l : List (κ × α)) (h : alistFind k l = some w) :
    (alistSet k v l).map Prod.fst = l.map Prod.fst := by
  induction l with
  | nil => simp [alistFind] at h
  | cons hd tl ih =>
      obtain ⟨k₀, v₀⟩ := hd
      by_cases h0 : k₀ = k
      · simp [alistSet, h0]
      · simp [alistFind, h0] at h
        simp [alistSet, h0, ih h]

theorem alistSet_find_eq_self {κ α : Type} [DecidableEq κ] (k : κ) (v : α)
    (l : List (κ × α)) (h : alistFind k l = some v) :
    alistSet k v l = l := by
  induction l with
  | nil => simp [alistFind] at h
  | cons hd tl ih =>
      obtain ⟨k₀, v₀⟩ := hd
      by_cases h0 : k₀ = k
      · simp [alistFind, h0] at h
        simp [alistSet, h0, h]
      · simp [alistFind, h0] at h
        simp [alistSet, h0, ih h]

/-! ## Helper lemmas about the service operations -/

theorem handleAnswer_noop_of_find_none (svc : WebRTCService) (r : String)
    (a : SessionDesc) (h : alistFind r svc.peerConnections = none) :
    svc.handleAnswer r a = svc := by
  simp [WebRTCService.handleAnswer, h]

theorem handleIceCandidate_noop_of_find_none (svc : WebRTCService)
    (r : String) (c : IceCandidate)
    (h : alistFind r svc.peerConnections = none) :
    svc.handleIceCandidate r c = svc := by
  simp [WebRTCService.handleIceCandidate, h]

theorem closePeerConnection_noop_of_find_none (svc : WebRTCService)
    (r : String) (h : alistFind r svc.peerConnections = none) :
    svc.closePeerConnection r = svc := by
  simp [WebRTCService.closePeerConnection, h]

/-- A service whose `peerConnections` map holds exactly one fresh
connection for remote `"b"` (as right after `createPeerConnection("b")` on
a service with no local stream). -/
def svcWithFreshB : WebRTCService :=
  WebRTCService.fresh.storePeer "b" ⟨"b", .fresh⟩

/-- C10: invoking `handleAnswer`, `handleIceCandidate` or
`closePeerConnection` for a remote id with no registered peer connection
returns without error and leaves the connection table (hence every
existing link) unchanged. -/
theorem unknown_remote_operations_are_noops (svc : WebRTCService)
    (r : String) (a : SessionDesc) (c : IceCandidate)
    (h : alistFind r svc.peerConnections = none) :
    svc.handleAnswer r a = svc ∧ svc.handleIceCandidate r c = svc ∧
      svc.closePeerConnection r = svc :=
  ⟨handleAnswer_noop_of_find_none svc r a h,
   handleIceCandidate_noop_of_find_none svc r c h,
   closePeerConnection_noop_of_find_none svc r h⟩

/-- Witness for `unknown_remote_operations_are_noops` on a fresh service
and remote `"x"`. -/
theorem unknown_remote_operations_are_noops_witness :
    WebRTCService.fresh.handleAnswer "x" ⟨.answer, 0⟩ = WebRTCService.fresh ∧
      WebRTCService.fresh.handleIceCandidate "x" ⟨0⟩ = WebRTCService.fresh ∧
      WebRTCService.fresh.closePeerConnection "x" = WebRTCService.fresh :=
  unknown_remote_operations_are_noops WebRTCService.fresh "x" ⟨.answer, 0⟩
    ⟨0⟩ (by rfl)

/-- The observable connection state right after `createOffer("b")` on a
fresh service: `have-local-offer` with the offer as local description. -/
def pcOfferB : RTCPeerConnection :=
  { RTCPeerConnection.fresh with
      signalingState := .haveLocalOffer
      localDescription := some ⟨.offer, 0⟩ }

/-- The service after `createOffer("b")` on a fresh service. -/
def svcOfferB : WebRTCService := (WebRTCService.fresh.createOffer "b").2

/-- C3: `handleAnswer` is a no-op unless the link's signaling state is
exactly `have-local-offer`; in that state it applies the answer as remote
description and returns the link to `stable`; and applying the same answer
twice leaves the state unchanged after the first application. -/
theorem handleAnswer_only_from_haveLocalOffer (svc : WebRTCService)
    (r : String) (a : SessionDesc) (e : PeerConnectionEntry)
    (h : alistFind r svc.peerConnections = some e) :
    (e.connection.signalingState ≠ .haveLocalOffer →
        svc.handleAnswer r a = svc) ∧
    (e.connection.signalingState = .haveLocalOffer → a.type = .answer →
        svc.handleAnswer r a = svc.storePeer r ⟨e.userId, { e.connection with signalingState := .stable, remoteDescription := some a }⟩) ∧
    (svc.handleAnswer r a).handleAnswer r a = svc.handleAnswer r a := by
  refine ⟨?_, ?_, ?_⟩
  · intro hne
    simp [WebRTCService.handleAnswer, h, hne]
  · intro hs ha
    simp [WebRTCService.handleAnswer, h, hs,
      RTCPeerConnection.setRemoteDescription, ha]
  · rcases hfind : alistFind r svc.peerConnections with _ | e'
    · rw [handleAnswer_noop_of_find_none svc r a hfind,
        handleAnswer_noop_of_find_none svc r a hfind]
    · by_cases hs : e'.connection.signalingState = .haveLocalOffer
      · have h1 : svc.handleAnswer r a =
            svc.storePeer r ⟨e'.userId, e'.connection.setRemoteDescription a⟩ := by
          simp [WebRTCService.handleAnswer, hfind, hs]
        cases hty : a.type with
        | offer =>
            have hid : e'.connection.setRemoteDescription a = e'.connection := by
              simp [RTCPeerConnection.setRemoteDescription, hs, hty]
            have h2 : svc.handleAnswer r a = svc := by
              rw [h1, hid]
              show svc.storePeer r ⟨e'.userId, e'.connection⟩ = svc
              simp [WebRTCService.storePeer,
                alistSet_find_eq_self r e' svc.peerConnections hfind]
            rw [h2, h2]
        | answer =>
            have hpc : (e'.connection.setRemoteDescription a).signalingState
                = .stable := by
              simp [RTCPeerConnection.setRemoteDescription, hs, hty]
            rw [h1]
            have hfind2 : alistFind r (svc.storePeer r
                ⟨e'.userId, e'.connection.setRemoteDescription a⟩).peerConnections
                = some ⟨e'.userId, e'.connection.setRemoteDescription a⟩ := by
              simp [WebRTCService.storePeer, alistFind_set]
            simp [WebRTCService.handleAnswer, hfind2, hpc]
      · have h1 : svc.handleAnswer r a = svc := by
          simp [WebRTCService.handleAnswer, hfind, hs]
        rw [h1, h1]

/-- Witness for `handleAnswer_only_from_haveLocalOffer` on the service
after `createOffer("b")` and a concrete answer. -/
theorem handleAnswer_only_from_haveLocalOffer_witness :
    (pcOfferB.signalingState ≠ .haveLocalOffer →
        svcOfferB.handleAnswer "b" ⟨.answer, 3⟩ = svcOfferB) ∧
    (pcOfferB.signalingState = .haveLocalOffer →
        (⟨.answer, 3⟩ : SessionDesc).type = .answer →
        svcOfferB.handleAnswer "b" ⟨.answer, 3⟩ = svcOfferB.storePeer "b" ⟨"b", { pcOfferB with signalingState := .stable, remoteDescription := some ⟨.answer, 3⟩ }⟩) ∧
    (svcOfferB.handleAnswer "b" ⟨.answer, 3⟩).handleAnswer "b" ⟨.answer, 3⟩
      = svcOfferB.handleAnswer "b" ⟨.answer, 3⟩ :=
  handleAnswer_only_from_haveLocalOffer svcOfferB "b" ⟨.answer, 3⟩
    ⟨"b", pcOfferB⟩ (by decide)

/-- C1 (counterexample): on a link with no remote description
(`createOffer` done, answer not yet received), a delivered candidate is
not retained anywhere — the service state is unchanged — and after the
remote description is set by the answer, the applied-candidate list is
still empty: the candidate was dropped, not queued. -/
theorem candidate_before_remote_description_is_lost :
    svcOfferB.handleIceCandidate "b" ⟨7⟩ = svcOfferB ∧
    (alistFind "b" ((svcOfferB.handleIceCandidate "b" ⟨7⟩).handleAnswer "b"
        ⟨.answer, 3⟩).peerConnections).map
      (fun e => e.connection.appliedCandidates) = some [] := by
  decide

/-- C1 (amended): a candidate delivered while the link has no remote
description is discarded (the service keeps no pending queue and is left
unchanged); a candidate delivered once a remote description is set is
applied immediately, appended in delivery order. -/
theorem handleIceCandidate_drops_or_applies (svc : WebRTCService)
    (r : String) (c : IceCandidate) (e : PeerConnectionEntry)
    (h : alistFind r svc.peerConnections = some e) :
    (e.connection.remoteDescription = none →
        svc.handleIceCandidate r c = svc) ∧
    (e.connection.remoteDescription ≠ none →
        svc.handleIceCandidate r c = svc.storePeer r ⟨e.userId, { e.connection with appliedCandidates := e.connection.appliedCandidates ++ [c] }⟩) := by
  constructor
  · intro hnone
    simp [WebRTCService.handleIceCandidate, h, hnone]
  · intro hne
    have hsome : e.connection.remoteDescription.isSome := by
      exact Option.isSome_iff_ne_none.mpr hne
    simp [WebRTCService.handleIceCandidate, h, hsome,
      RTCPeerConnection.addIceCandidate]

/-- Witness for `handleIceCandidate_drops_or_applies` on the service after
`createOffer("b")`, whose link has no remote description. -/
theorem handleIceCandidate_drops_or_applies_witness :
    (pcOfferB.remoteDescription = none →
        svcOfferB.handleIceCandidate "b" ⟨7⟩ = svcOfferB) ∧
    (pcOfferB.remoteDescription ≠ none →
        svcOfferB.handleIceCandidate "b" ⟨7⟩ = svcOfferB.storePeer "b" ⟨"b", { pcOfferB with appliedCandidates := pcOfferB.appliedCandidates ++ [⟨7⟩] }⟩) :=
  handleIceCandidate_drops_or_applies svcOfferB "b" ⟨7⟩ ⟨"b", pcOfferB⟩
    (by decide)

/-- The attachment loop over a duplicate-free track list none of which is
already a sender appends exactly those tracks, in order. -/
theorem attachTracks_senders (ts : List Track) (pc : RTCPeerConnection)
    (hnd : ts.Nodup) (hdisj : ∀ t ∈ ts, t ∉ pc.senders) :
    (WebRTCService.attachTracks pc ts).senders = pc.senders ++ ts := by
  induction ts generalizing pc with
  | nil => simp [WebRTCService.attachTracks]
  | cons t rest ih =>
      have hmem : t ∉ pc.senders := hdisj t (by simp)
      have hstep : WebRTCService.attachTracks pc (t :: rest)
          = WebRTCService.attachTracks (pc.addTrack t) rest := by
        simp [WebRTCService.attachTracks, hmem]
      rw [hstep]
      have hrest : ∀ t' ∈ rest, t' ∉ (pc.addTrack t).senders := by
        intro t' ht'
        simp [RTCPeerConnection.addTrack]
        constructor
        · exact hdisj t' (by simp [ht'])
        · intro heq
          subst heq
          exact (List.nodup_cons.mp hnd).1 ht'
      rw [ih (pc.addTrack t) (List.nodup_cons.mp hnd).2 hrest]
      simp [RTCPeerConnection.addTrack]

/-- C7: `createPeerConnection` is idempotent — a second invocation for the
same remote while the stored link is in any non-closed connection state
returns that same link with the service (hence the link's sender set)
unchanged; only when no link is stored, or the stored one is closed, is a
fresh link constructed, with every current local track attached exactly
once. -/
theorem createPeerConnection_reuse_or_fresh (svc : WebRTCService)
    (r : String) (e : PeerConnectionEntry) :
    (alistFind r svc.peerConnections = some e →
        e.connection.connectionState ≠ .closedConn →
        svc.createPeerConnection r = (e.connection, svc)) ∧
    (alistFind r svc.peerConnections = none →
        (svc.localStream.getD []).Nodup →
        (svc.createPeerConnection r).1.senders = svc.localStream.getD []) ∧
    (alistFind r svc.peerConnections = some e →
        e.connection.connectionState = .closedConn →
        (svc.localStream.getD []).Nodup →
        (svc.createPeerConnection r).1.senders = svc.localStream.getD []) := by
  refine ⟨?_, ?_, ?_⟩
  · intro h hne
    simp [WebRTCService.createPeerConnection, h, hne]
  · intro h hnd
    simp [WebRTCService.createPeerConnection, h]
    rw [attachTracks_senders _ _ hnd (by simp [RTCPeerConnection.fresh])]
    simp [RTCPeerConnection.fresh]
  · intro h hclosed hnd
    simp [WebRTCService.createPeerConnection, h, hclosed,
      WebRTCService.closePeerConnection]
    rw [attachTracks_senders _ _ hnd (by simp [RTCPeerConnection.fresh])]
    simp [RTCPeerConnection.fresh]

/-- Witness for `createPeerConnection_reuse_or_fresh` on a service holding
a fresh (non-closed) connection for `"b"`. -/
theorem createPeerConnection_reuse_or_fresh_witness :
    (alistFind "b" svcWithFreshB.peerConnections = some ⟨"b", .fresh⟩ →
        RTCPeerConnection.fresh.connectionState ≠ .closedConn →
        svcWithFreshB.createPeerConnection "b"
          = (RTCPeerConnection.fresh, svcWithFreshB)) ∧
    (alistFind "b" svcWithFreshB.peerConnections = none →
        (svcWithFreshB.localStream.getD []).Nodup →
        (svcWithFreshB.createPeerConnection "b").1.senders
          = svcWithFreshB.localStream.getD []) ∧
    (alistFind "b" svcWithFreshB.peerConnections = some ⟨"b", .fresh⟩ →
        RTCPeerConnection.fresh.connectionState = .closedConn →
        (svcWithFreshB.localStream.getD []).Nodup →
        (svcWithFreshB.createPeerConnection "b").1.senders
          = svcWithFreshB.localStream.getD []) :=
  createPeerConnection_reuse_or_fresh svcWithFreshB "b" ⟨"b", .fresh⟩

/-- An initial provider state: empty collections, fresh service, initial
UI state, no incoming call, clock at 100. -/
def initState : CallCtxState where
  calls := []
  offers := []
  answers := []
  svc := .fresh
  callState := initialCallState
  incomingCall := none
  pendingRingTimers := []
  now := 100

/-- C6: with `receiverIds.size() + 1 > 5` the participant-count guard
rejects `startCall` before any side effect: the result is the
too-many-participants rejection and the whole state — call documents,
offers, service, media, UI state — is exactly as before. -/
theorem startCall_rejects_too_many_participants (user : String)
    (receiverIds : List String) (type : CallType) (s : CallCtxState)
    (h : MAX_PARTICIPANTS < receiverIds.length + 1) :
    startCall user receiverIds type s = (.tooManyParticipants, s) := by
  simp [startCall, h]

/-- Witness for `startCall_rejects_too_many_participants` with five
receivers (six participants). -/
theorem startCall_rejects_too_many_participants_witness :
    MAX_PARTICIPANTS < (["b", "c", "d", "e", "f"] : List String).length + 1 ∧
    startCall "a" ["b", "c", "d", "e", "f"] .video initState
      = (.tooManyParticipants, initState) :=
  ⟨by decide,
   startCall_rejects_too_many_participants "a" ["b", "c", "d", "e", "f"]
     .video initState (by decide)⟩

/-- C2 (counterexample): start a call to `"b"` (scheduling the ring
timer), end it — the session is `ended`, a terminal status — and then let
the scheduled timer fire: the ended session is mutated to `active`.
Nothing cancels the `setTimeout` and its callback does not check the
session status. -/
theorem ring_timer_fires_after_terminal_status :
    ((alistFind "call0"
        (endCall false (startCall "a" ["b"] .video initState).2).calls).map
      CallDoc.status = some .ended) ∧
    ((endCall false (startCall "a" ["b"] .video initState).2).pendingRingTimers
      = ["call0"]) ∧
    ((alistFind "call0" (fireRingTimer "call0"
        (endCall false (startCall "a" ["b"] .video initState).2)).calls).map
      CallDoc.status = some .active) := by
  decide

/-- C2 (amended): the scheduled ring transition is fire-and-forget — the
timer callback unconditionally rewrites the session to `active` (with
`startedAt`) whatever its current status, and `endCall` does not cancel
the scheduled timer. -/
theorem fireRingTimer_unconditionally_activates (s : CallCtxState)
    (cid : String) (d : CallDoc) (b : Bool)
    (h : alistFind cid s.calls = some d) :
    (fireRingTimer cid s).calls
        = alistSet cid { d with status := .active, startedAt := some s.now } s.calls ∧
    (endCall b s).pendingRingTimers = s.pendingRingTimers := by
  constructor
  · simp [fireRingTimer, h]
  · unfold endCall
    rcases s.callState.callId with _ | cid'
    · rfl
    · cases b
      · simp only [Bool.false_eq_true, if_false]
        rcases alistFind cid' s.calls with _ | d'
        · rfl
        · rfl
      · rfl

/-- The call document created by `startCall "a" ["b"]` in `initState`. -/
def ringingDocAB : CallDoc where
  callerId := "a"
  receiverId := some "b"
  participants := ["a", "b"]
  type := .video
  status := .ringing
  isGroupCall := false
  createdAt := 100
  startedAt := none
  endedAt := none

/-- Witness for `fireRingTimer_unconditionally_activates` on the state
right after `startCall "a" ["b"]`. -/
theorem fireRingTimer_unconditionally_activates_witness :
    (fireRingTimer "call0" (startCall "a" ["b"] .video initState).2).calls
        = alistSet "call0" { ringingDocAB with
            status := .active,
            startedAt := some (startCall "a" ["b"] .video initState).2.now }
          (startCall "a" ["b"] .video initState).2.calls ∧
    (endCall false
        (startCall "a" ["b"] .video initState).2).pendingRingTimers
      = (startCall "a" ["b"] .video initState).2.pendingRingTimers :=
  fireRingTimer_unconditionally_activates
    (startCall "a" ["b"] .video initState).2 "call0" ringingDocAB false
    (by decide)

/-- C4 (counterexample): on the state right after `startCall "a" ["b"]`
(one live peer connection, acquired local stream), a failing status write
makes `endCall` change nothing at all: the session stays `ringing`, the
peer connection is not closed, and no track is stopped — the cleanup steps
are short-circuited, not attempted. -/
theorem endCall_write_failure_skips_all_cleanup :
    endCall true (startCall "a" ["b"] .video initState).2
        = (startCall "a" ["b"] .video initState).2 ∧
    (startCall "a" ["b"] .video initState).2.svc.peerConnections.map
        Prod.fst = ["b"] ∧
    (startCall "a" ["b"] .video initState).2.svc.localStream.isSome = true ∧
    ((alistFind "call0"
        (endCall true (startCall "a" ["b"] .video initState).2).calls).map
      CallDoc.status = some .ringing) := by
  decide

/-- C4 (amended): in a call (local `callId` set, document present),
`endCall` with a successful status write performs all three cleanup steps
— the document is set to `ended`, every peer connection is closed and
removed, every local track is stopped and the stream dropped — but the
steps run inside one `try` block, so when the status write rejects,
nothing happens at all: link closure and media release are skipped rather
than still attempted. -/
theorem endCall_success_path_and_short_circuit (s : CallCtxState)
    (cid : String) (d : CallDoc) (h : s.callState.callId = some cid)
    (hd : alistFind cid s.calls = some d) :
    (endCall false s).calls
        = alistSet cid { d with status := .ended, endedAt := some s.now } s.calls ∧
    (endCall false s).svc.peerConnections = [] ∧
    (endCall false s).svc.localStream = none ∧
    (endCall false s).svc.stoppedTrackIds
        = s.svc.stoppedTrackIds ++ (s.svc.localStream.getD []).map Track.id ∧
    endCall true s = s := by
  refine ⟨?_, ?_, ?_, ?_, ?_⟩
  · simp [endCall, h, hd]
  · simp [endCall, h, hd, WebRTCService.cleanup]
  · simp [endCall, h, hd, WebRTCService.cleanup]
  · rcases hls : s.svc.localStream with _ | ts <;>
      simp [endCall, h, hd, WebRTCService.cleanup, hls]
  · simp [endCall, h]

/-- Witness for `endCall_success_path_and_short_circuit` on the state
right after `startCall "a" ["b"]`. -/
theorem endCall_success_path_and_short_circuit_witness :
    (endCall false (startCall "a" ["b"] .video initState).2).calls
        = alistSet "call0" { ringingDocAB with
            status := .ended,
            endedAt := some (startCall "a" ["b"] .video initState).2.now }
          (startCall "a" ["b"] .video initState).2.calls ∧
    (endCall false (startCall "a" ["b"] .video initState).2).svc.peerConnections = [] ∧
    (endCall false (startCall "a" ["b"] .video initState).2).svc.localStream = none ∧
    (endCall false (startCall "a" ["b"] .video initState).2).svc.stoppedTrackIds
        = (startCall "a" ["b"] .video initState).2.svc.stoppedTrackIds ++
          ((startCall "a" ["b"] .video initState).2.svc.localStream.getD []).map Track.id ∧
    endCall true (startCall "a" ["b"] .video initState).2
      = (startCall "a" ["b"] .video initState).2 :=
  endCall_success_path_and_short_circuit
    (startCall "a" ["b"] .video initState).2 "call0" ringingDocAB
    (by decide) (by decide)

/-- A call document already in the terminal `ended` status. -/
def endedDocAB : CallDoc where
  callerId := "a"
  receiverId := some "b"
  participants := ["a", "b"]
  type := .video
  status := .ended
  isGroupCall := false
  createdAt := 0
  startedAt := none
  endedAt := some 50

/-- A provider state still holding the terminal session `"c1"` as the
incoming call (its terminal status not yet observed by the snapshot
listener). -/
def terminalHeldState : CallCtxState :=
  { initState with
      calls := [("c1", endedDocAB)]
      incomingCall := some ("c1", endedDocAB) }

/-- C5 (counterexample): `answerCall` on a session whose document is in
the terminal `ended` status does not fail with any `SessionClosed` error —
no such error exists — and it mutates the terminal session's status to
`active`, a side effect on a terminal record. -/
theorem answerCall_mutates_terminal_session :
    (alistFind "c1" terminalHeldState.calls).map CallDoc.status
        = some .ended ∧
    (answerCall "b" "c1" terminalHeldState).1 = .ok ∧
    (alistFind "c1" (answerCall "b" "c1" terminalHeldState).2.calls).map
        CallDoc.status = some .active := by
  decide

/-- C5 (amended): no operation checks for a terminal status and no
`SessionClosed` error exists.  `endCall` and `answerCall` guard only on
local UI state (`callId`/`incomingCall` being set), returning silently
when absent; and `answerCall` invoked while a session — of any status,
terminal included — is still held as the incoming call proceeds and
rewrites that session to `active`. -/
theorem operations_lack_sessionClosed_guard (s : CallCtxState)
    (u cid : String) (b : Bool) (i : String × CallDoc) (d : CallDoc) :
    (s.incomingCall = none → answerCall u cid s = (.skipped, s)) ∧
    (s.callState.callId = none → endCall b s = s) ∧
    (s.incomingCall = some i → alistFind cid s.calls = some d →
        (answerCall u cid s).1 = .ok ∧
        (alistFind cid (answerCall u cid s).2.calls).map CallDoc.status
          = some .active) := by
  refine ⟨?_, ?_, ?_⟩
  · intro hin
    simp [answerCall, hin]
  · intro hcid
    simp [endCall, hcid]
  · intro hin hd
    obtain ⟨iid, inc⟩ := i
    simp only [answerCall, hin]
    rcases hoff : alistFind (cid, u) s.offers with _ | od
    · simp [hoff, answerCallFinish, hd, alistFind_set]
    · simp [hoff, answerCallFinish, hd, alistFind_set]

/-- Witness for `operations_lack_sessionClosed_guard` on the state holding
terminal session `"c1"` as the incoming call. -/
theorem operations_lack_sessionClosed_guard_witness :
    (terminalHeldState.incomingCall = none →
        answerCall "b" "c1" terminalHeldState = (.skipped, terminalHeldState)) ∧
    (terminalHeldState.callState.callId = none →
        endCall false terminalHeldState = terminalHeldState) ∧
    (terminalHeldState.incomingCall = some ("c1", endedDocAB) →
        alistFind "c1" terminalHeldState.calls = some endedDocAB →
        (answerCall "b" "c1" terminalHeldState).1 = .ok ∧
        (alistFind "c1" (answerCall "b" "c1" terminalHeldState).2.calls).map
            CallDoc.status = some .active) :=
  operations_lack_sessionClosed_guard terminalHeldState "b" "c1" false
    ("c1", endedDocAB) endedDocAB

/-- The fields of a call document that the session-membership invariant
depends on. -/
def membershipFields (d : CallDoc) : List String × Bool :=
  (d.participants, d.isGroupCall)

theorem fireRingTimer_keeps_membership (tid cid : String)
    (s : CallCtxState) (d : CallDoc)
    (h : alistFind cid s.calls = some d) :
    (alistFind cid (fireRingTimer tid s).calls).map membershipFields
      = some (membershipFields d) := by
  rcases hfind : alistFind tid s.calls with _ | dt
  · simp [fireRingTimer, hfind, h]
  · by_cases hc : cid = tid
    · subst hc
      rw [hfind] at h
      injection h with h'
      subst h'
      simp [fireRingTimer, hfind, alistFind_set, membershipFields]
    · simp [fireRingTimer, hfind, alistFind_set, hc, h]

theorem endCall_keeps_membership (b : Bool) (cid : String)
    (s : CallCtxState) (d : CallDoc)
    (h : alistFind cid s.calls = some d) :
    (alistFind cid (endCall b s).calls).map membershipFields
      = some (membershipFields d) := by
  rcases hcallid : s.callState.callId with _ | tid
  · simp [endCall, hcallid, h]
  · cases b with
    | true => simp [endCall, hcallid, h]
    | false =>
        rcases hfind : alistFind tid s.calls with _ | dt
        · simp [endCall, hcallid, hfind, h]
        · by_cases hc : cid = tid
          · subst hc
            rw [hfind] at h
            injection h with h'
            subst h'
            simp [endCall, hcallid, hfind, alistFind_set, membershipFields]
          · simp [endCall, hcallid, hfind, alistFind_set, hc, h]

theorem answerCallFinish_keeps_membership (tid : String) (ity : CallType)
    (svc : WebRTCService) (ans : List ((String × String) × AnswerDoc))
    (ls : List Track) (cid : String) (s : CallCtxState) (d : CallDoc)
    (h : alistFind cid s.calls = some d) :
    (alistFind cid (answerCallFinish tid ity svc ans ls s).2.calls).map
        membershipFields = some (membershipFields d) := by
  rcases hfind : alistFind tid s.calls with _ | dt
  · simp [answerCallFinish, hfind, h]
  · by_cases hc : cid = tid
    · subst hc
      rw [hfind] at h
      injection h with h'
      subst h'
      simp [answerCallFinish, hfind, alistFind_set, membershipFields]
    · simp [answerCallFinish, hfind, alistFind_set, hc, h]

theorem answerCall_keeps_membership (u tid cid : String)
    (s : CallCtxState) (d : CallDoc)
    (h : alistFind cid s.calls = some d) :
    (alistFind cid (answerCall u tid s).2.calls).map membershipFields
      = some (membershipFields d) := by
  rcases hin : s.incomingCall with _ | ip
  · simp [answerCall, hin, h]
  · obtain ⟨iid, inc⟩ := ip
    simp only [answerCall, hin]
    rcases hoff : alistFind (tid, u) s.offers with _ | od
    · simpa [hoff] using answerCallFinish_keeps_membership tid inc.type _ _ _ cid s d h
    · simpa [hoff] using answerCallFinish_keeps_membership tid inc.type _ _ _ cid s d h

/-- C8 (counterexample): `startCall` with the duplicate receiver list
`["b", "b"]` creates a session whose distinct-participant set has size 2
while `isGroupCall` is `true` — violating
`isGroup == (participantIds.size() > 2)` (the code compares the raw
receiver-list length, not the distinct participant count). -/
theorem startCall_duplicate_receivers_break_invariant :
    (alistFind "call0"
        (startCall "a" ["b", "b"] .video initState).2.calls).map
      (fun d => (d.participants, d.isGroupCall))
      = some (["a", "b", "b"], true) ∧
    ("a" :: ["b", "b"]).dedup.length = 2 ∧
    (true : Bool) ≠ decide (2 < ("a" :: ["b", "b"]).dedup.length) := by
  decide

/-- C8 (amended): the created document stores `participants` as the raw
list `caller :: receiverIds` and `isGroupCall == (receiverIds.length > 1)`;
when at least one receiver is given and caller and receivers are pairwise
distinct, the claimed invariant holds — the distinct-participant count is
between 2 and 5 and `isGroupCall` equals `(count > 2)` — and it is
preserved for the session's lifetime, since no operation rewrites
`participants` or `isGroupCall`. -/
theorem startCall_membership_invariant (u : String) (rs : List String)
    (ty : CallType) (s σ : CallCtxState) (b : Bool)
    (tid u' c' cid' : String) (d' : CallDoc)
    (hlen : rs.length + 1 ≤ MAX_PARTICIPANTS) (hne : rs ≠ [])
    (hnd : (u :: rs).Nodup) :
    ((alistFind (freshCallId s) (startCall u rs ty s).2.calls).map
        (fun d => (d.participants, d.isGroupCall))
      = some (u :: rs, decide (2 < (u :: rs).dedup.length))) ∧
    2 ≤ (u :: rs).dedup.length ∧
    (u :: rs).dedup.length ≤ MAX_PARTICIPANTS ∧
    (alistFind cid' σ.calls = some d' →
      (alistFind cid' (fireRingTimer tid σ).calls).map membershipFields
        = some (membershipFields d')) ∧
    (alistFind cid' σ.calls = some d' →
      (alistFind cid' (endCall b σ).calls).map membershipFields
        = some (membershipFields d')) ∧
    (alistFind cid' σ.calls = some d' →
      (alistFind cid' (answerCall u' c' σ).2.calls).map membershipFields
        = some (membershipFields d')) := by
  have hguard : ¬(MAX_PARTICIPANTS < rs.length + 1) := Nat.not_lt.mpr hlen
  have hded : (u :: rs).dedup = u :: rs := List.dedup_eq_self.mpr hnd
  have hpos : 0 < rs.length := List.length_pos.mpr hne
  have hdec : (decide (1 < rs.length) : Bool)
      = decide (2 < (u :: rs).dedup.length) := by
    rw [hded]
    simp only [List.length_cons]
    exact decide_eq_decide.mpr (by omega)
  refine ⟨?_, ?_, ?_, ?_, ?_, ?_⟩
  · simp [startCall, hguard, alistFind_set, hdec]
  · rw [hded]
    simp only [List.length_cons]
    omega
  · rw [hded]
    simpa only [List.length_cons] using hlen
  · intro h'
    exact fireRingTimer_keeps_membership tid cid' σ d' h'
  · intro h'
    exact endCall_keeps_membership b cid' σ d' h'
  · intro h'
    exact answerCall_keeps_membership u' c' cid' σ d' h'

/-- Witness for `startCall_membership_invariant` with caller `"a"` and
distinct receivers `["b", "c"]`, and preservation checked on the state
holding session `"c1"`. -/
theorem startCall_membership_invariant_witness :
    ((alistFind (freshCallId initState)
        (startCall "a" ["b", "c"] .video initState).2.calls).map
      (fun d => (d.participants, d.isGroupCall))
      = some ("a" :: ["b", "c"],
          decide (2 < ("a" :: ["b", "c"]).dedup.length))) ∧
    2 ≤ ("a" :: ["b", "c"]).dedup.length ∧
    ("a" :: ["b", "c"]).dedup.length ≤ MAX_PARTICIPANTS ∧
    (alistFind "c1" terminalHeldState.calls = some endedDocAB →
      (alistFind "c1" (fireRingTimer "c1" terminalHeldState).calls).map
          membershipFields = some (membershipFields endedDocAB)) ∧
    (alistFind "c1" terminalHeldState.calls = some endedDocAB →
      (alistFind "c1" (endCall false terminalHeldState).calls).map
          membershipFields = some (membershipFields endedDocAB)) ∧
    (alistFind "c1" terminalHeldState.calls = some endedDocAB →
      (alistFind "c1" (answerCall "b" "c1" terminalHeldState).2.calls).map
          membershipFields = some (membershipFields endedDocAB)) :=
  startCall_membership_invariant "a" ["b", "c"] .video initState
    terminalHeldState false "c1" "b" "c1" "c1" endedDocAB
    (by decide) (by decide) (by decide)

theorem alistSet_append_of_find_none {κ α : Type} [DecidableEq κ] (k : κ)
    (v : α) (l : List (κ × α)) (h : alistFind k l = none) :
    alistSet k v l = l ++ [(k, v)] := by
  induction l with
  | nil => simp [alistSet]
  | cons hd tl ih =>
      obtain ⟨k₀, v₀⟩ := hd
      by_cases h0 : k₀ = k
      · simp [alistFind, h0] at h
      · simp [alistFind, h0] at h
        simp [alistSet, h0, ih h]

theorem alistFind_erase_ne {κ α : Type} [DecidableEq κ] (k k' : κ)
    (l : List (κ × α)) (h : k ≠ k') :
    alistFind k (alistErase k' l) = alistFind k l := by
  induction l with
  | nil => rfl
  | cons hd tl ih =>
      obtain ⟨k₀, v₀⟩ := hd
      by_cases h0 : k₀ = k'
      · subst h0
        have hk : ¬k₀ = k := fun hh => h hh.symm
        simp [alistErase, alistFind, hk]
      · simp [alistErase, alistFind, h0, ih]

theorem createPeerConnection_find_other (svc : WebRTCService)
    (r r' : String) (hne : r' ≠ r) :
    alistFind r' (svc.createPeerConnection r).2.peerConnections
      = alistFind r' svc.peerConnections := by
  unfold WebRTCService.createPeerConnection
  rcases hfind : alistFind r svc.peerConnections with _ | e
  · simp [WebRTCService.storePeer, alistFind_set, hne]
  · by_cases hcs : e.connection.connectionState = .closedConn
    · simp [hcs, WebRTCService.closePeerConnection, hfind,
        WebRTCService.storePeer, alistFind_set, hne,
        alistFind_erase_ne r' r _ hne]
    · simp [hcs]

theorem createOffer_find_other (svc : WebRTCService) (r r' : String)
    (hne : r' ≠ r) :
    alistFind r' (svc.createOffer r).2.peerConnections
      = alistFind r' svc.peerConnections := by
  unfold WebRTCService.createOffer
  simp only [WebRTCService.storePeer, alistFind_set, if_neg hne]
  exact createPeerConnection_find_other svc r r' hne

theorem createOffer_keys (svc : WebRTCService) (r : String)
    (h : alistFind r svc.peerConnections = none) :
    (svc.createOffer r).2.peerConnections.map Prod.fst
      = svc.peerConnections.map Prod.fst ++ [r] := by
  unfold WebRTCService.createOffer WebRTCService.createPeerConnection
  rw [h]
  simp only [WebRTCService.storePeer]
  rw [alistSet_keys_of_find_some r _
      ⟨r, WebRTCService.attachTracks RTCPeerConnection.fresh
        (svc.localStream.getD [])⟩ _ (by rw [alistFind_set]; simp),
    alistSet_keys_of_find_none r _ _ h]

theorem createAnswer_keys (svc : WebRTCService) (r : String)
    (offer : SessionDesc) (h : alistFind r svc.peerConnections = none) :
    (svc.createAnswer r offer).2.peerConnections.map Prod.fst
      = svc.peerConnections.map Prod.fst ++ [r] := by
  unfold WebRTCService.createAnswer WebRTCService.createPeerConnection
  rw [h]
  simp only [WebRTCService.storePeer]
  rw [alistSet_keys_of_find_some r _
      ⟨r, WebRTCService.attachTracks RTCPeerConnection.fresh
        (svc.localStream.getD [])⟩ _ (by rw [alistFind_set]; simp),
    alistSet_keys_of_find_none r _ _ h]

theorem publishOffers_spec (u cid : String) (rs : List String) :
    ∀ (svc : WebRTCService) (offers : List ((String × String) × OfferDoc)),
      rs.Nodup →
      (∀ r ∈ rs, alistFind r svc.peerConnections = none) →
      (∀ r ∈ rs, alistFind (cid, r) offers = none) →
      (publishOffers u cid rs svc offers).1.peerConnections.map Prod.fst
          = svc.peerConnections.map Prod.fst ++ rs ∧
      (publishOffers u cid rs svc offers).2
          = offers ++ rs.map (fun r => ((cid, r), ⟨⟨.offer, 0⟩, u, r⟩)) := by
  induction rs with
  | nil =>
      intro svc offers _ _ _
      simp [publishOffers]
  | cons r rest ih =>
      intro svc offers hnd hpc hoff
      have hpcr : alistFind r svc.peerConnections = none := hpc r (by simp)
      have hoffr : alistFind (cid, r) offers = none := hoff r (by simp)
      have hstep : publishOffers u cid (r :: rest) svc offers
          = publishOffers u cid rest (svc.createOffer r).2
              (alistSet (cid, r) ⟨⟨.offer, 0⟩, u, r⟩ offers) := rfl
      rw [hstep]
      obtain ⟨hk, ho⟩ := ih (svc.createOffer r).2
          (alistSet (cid, r) ⟨⟨.offer, 0⟩, u, r⟩ offers)
          (List.nodup_cons.mp hnd).2
          (fun r' hr' => by
            rw [createOffer_find_other svc r r'
              (fun hh => (List.nodup_cons.mp hnd).1 (hh ▸ hr'))]
            exact hpc r' (by simp [hr']))
          (fun r' hr' => by
            rw [alistFind_set]
            have hne2 : ¬((cid, r') = (cid, r)) := by
              intro hh
              have hrr : r' = r := congrArg Prod.snd hh
              exact (List.nodup_cons.mp hnd).1 (hrr ▸ hr')
            rw [if_neg hne2]
            exact hoff r' (by simp [hr']))
      constructor
      · rw [hk, createOffer_keys svc r hpcr]
        simp
      · rw [ho, alistSet_append_of_find_none _ _ _ hoffr]
        simp

/-- C9: star topology.  On the caller's side, `startCall` creates exactly
one outbound peer connection per receiver (the connection table's keys are
exactly the receivers) and publishes exactly one offer per receiver, each
from the caller to that receiver; on a receiver's side, `answerCall`
creates exactly one inbound peer connection, keyed by the offer's sender
(the caller) — so neither operation ever creates a link between two
receivers. -/
theorem star_topology (u u₂ cid : String) (rs : List String)
    (ty : CallType) (s s₂ : CallCtxState) (od : OfferDoc)
    (i : String × CallDoc)
    (hnd : rs.Nodup) (hlen : rs.length + 1 ≤ MAX_PARTICIPANTS)
    (hpc : s.svc.peerConnections = []) (hoff : s.offers = [])
    (hin : s₂.incomingCall = some i)
    (hpc₂ : s₂.svc.peerConnections = [])
    (hod : alistFind (cid, u₂) s₂.offers = some od) :
    (startCall u rs ty s).2.svc.peerConnections.map Prod.fst = rs ∧
    (startCall u rs ty s).2.offers
        = rs.map (fun r => ((freshCallId s, r), ⟨⟨.offer, 0⟩, u, r⟩)) ∧
    (answerCall u₂ cid s₂).2.svc.peerConnections.map Prod.fst
        = [od.fromUserId] := by
  have hguard : ¬(MAX_PARTICIPANTS < rs.length + 1) := Nat.not_lt.mpr hlen
  have hsvc0 : ((s.svc.initializeLocalStream (ty = .voice)).2.setCallId
      (freshCallId s)).peerConnections = [] := by
    simp [WebRTCService.initializeLocalStream, WebRTCService.setCallId, hpc]
  obtain ⟨hk, ho⟩ := publishOffers_spec u (freshCallId s) rs
      ((s.svc.initializeLocalStream (ty = .voice)).2.setCallId
        (freshCallId s)) s.offers hnd
      (fun r hr => by simp [hsvc0, alistFind])
      (fun r hr => by simp [hoff, alistFind])
  rw [hoff] at ho
  refine ⟨?_, ?_, ?_⟩
  · simp [startCall, if_neg hguard, hk, hsvc0]
  · simp [startCall, if_neg hguard, hoff, ho]
  · obtain ⟨iid, inc⟩ := i
    simp only [answerCall, hin]
    rw [hod]
    have hpcA : ((s₂.svc.initializeLocalStream
        (inc.type = .voice)).2.setCallId cid).peerConnections = [] := by
      simp [WebRTCService.initializeLocalStream, WebRTCService.setCallId,
        hpc₂]
    have hkeysA := createAnswer_keys
        ((s₂.svc.initializeLocalStream (inc.type = .voice)).2.setCallId cid)
        od.fromUserId od.offer (by simp [hpcA, alistFind])
    rcases hfin : alistFind cid s₂.calls with _ | dc
    · simp [answerCallFinish, hfin, hkeysA, hpcA]
    · simp [answerCallFinish, hfin, hkeysA, hpcA]

/-- A receiver-side state: `"b"` holds the incoming session `"call0"` and
the offer addressed to `"b"` from `"a"` is present. -/
def receiverState : CallCtxState :=
  { initState with
      offers := [(("call0", "b"), ⟨⟨.offer, 0⟩, "a", "b"⟩)]
      incomingCall := some ("call0", ringingDocAB) }

/-- Witness for `star_topology`: caller `"a"` with receivers
`["b", "c", "d"]`, receiver `"b"` answering. -/
theorem star_topology_witness :
    (startCall "a" ["b", "c", "d"] .video initState).2.svc.peerConnections.map
        Prod.fst = ["b", "c", "d"] ∧
    (startCall "a" ["b", "c", "d"] .video initState).2.offers
        = (["b", "c", "d"] : List String).map
            (fun r => ((freshCallId initState, r), ⟨⟨.offer, 0⟩, "a", r⟩)) ∧
    (answerCall "b" "call0" receiverState).2.svc.peerConnections.map
        Prod.fst = [(⟨⟨.offer, 0⟩, "a", "b"⟩ : OfferDoc).fromUserId] :=
  star_topology "a" "b" "call0" ["b", "c", "d"] .video initState
    receiverState ⟨⟨.offer, 0⟩, "a", "b"⟩ ("call0", ringingDocAB)
    (by decide) (by decide) (by decide) (by decide) (by decide) (by decide)
    (by decide)
